import Mathlib

/-!
Verification of the date/week computation and template-substitution core of the
daily-weekly-notes plugin (`main.ts`).

Modelling conventions:
* A calendar date is a `CivilDate` (year, month 1–12, day), matching the spec's
  CalendarDate.  A JS `Date` at UTC midnight is modelled by its epoch-day
  number (days since 1970-01-01) as an `Int`; an arbitrary JS `Date` instant is
  modelled by its epoch-millisecond count as an `Int`.
* The host is modelled with local time = UTC (the spec fixes a single UTC
  frame for all dates), so `getFullYear`/`getMonth`/`getDate` agree with their
  UTC counterparts.
* `Date.UTC(y, m-1, d)` and the engine's civil-field extraction are modelled by
  proleptic-Gregorian conversions `daysFromCivil`/`civilFromDays`.  All
  division is `Int.ediv` (the `/` notation), which coincides with floor
  division for the positive constant divisors used, matching `Math.floor`.
* JS strings are modelled by `String`; `str.replace(/tok/g, rep)` for the
  literal tokens used by the source is modelled by `replaceAll`, and
  `split('\n')` / `join('\n')` / `trim()` by `splitNl` / `joinNl` / `trimWs`
  over `String.data`.
-/

/-- Civil (proleptic Gregorian) calendar date; month is 1–12, as in the spec's
CalendarDate.  (JS `getMonth` is 0-based; the model stores the 1-based month.) -/
structure CivilDate where
  year : Int
  month : Int
  day : Int
  deriving DecidableEq, Repr

/-- Gregorian leap year. -/
def isLeap (y : Int) : Prop := (y % 4 = 0 ∧ y % 100 ≠ 0) ∨ y % 400 = 0

instance (y : Int) : Decidable (isLeap y) := by unfold isLeap; infer_instance

/-- Epoch day of January 1 of year `y` (days since 1970-01-01). -/
def daysToYear (y : Int) : Int :=
  365 * y + (y - 1) / 4 - (y - 1) / 100 + (y - 1) / 400 - 719527

/-- Days from January 1 to the first of month `m` in a non-leap year. -/
def monthOffset (m : Int) : Int :=
  if m = 1 then 0 else if m = 2 then 31 else if m = 3 then 59
  else if m = 4 then 90 else if m = 5 then 120 else if m = 6 then 151
  else if m = 7 then 181 else if m = 8 then 212 else if m = 9 then 243
  else if m = 10 then 273 else if m = 11 then 304 else 334

/-- Epoch-day number of a civil date (days since 1970-01-01); models
`Date.UTC(year, month-1, day) / 86400000` for in-range fields. -/
def daysFromCivil (y m d : Int) : Int :=
  daysToYear y + monthOffset m + (if 3 ≤ m ∧ isLeap y then 1 else 0) + d - 1

/-- Year containing epoch day `t`: a linear first guess (400/146097 is the
reciprocal of the 365.2425-day mean Gregorian year) corrected by at most one. -/
def yearOfDay (t : Int) : Int :=
  if t < daysToYear (400 * (t + 719527) / 146097) then 400 * (t + 719527) / 146097 - 1
  else if daysToYear (400 * (t + 719527) / 146097 + 1) ≤ t then 400 * (t + 719527) / 146097 + 1
  else 400 * (t + 719527) / 146097

/-- 1 in a leap year, 0 otherwise. -/
def leapN (y : Int) : Int := if isLeap y then 1 else 0

/-- 0-based day of the year containing epoch day `t`. -/
def dayOfYear (t : Int) : Int := t - daysToYear (yearOfDay t)

/-- Month (1–12) from a 0-based day-of-year, given the year's leap bit `l`. -/
def monthFromDoy (l dy : Int) : Int :=
  if dy < 31 then 1 else if dy < 59 + l then 2 else if dy < 90 + l then 3
  else if dy < 120 + l then 4 else if dy < 151 + l then 5
  else if dy < 181 + l then 6 else if dy < 212 + l then 7
  else if dy < 243 + l then 8 else if dy < 273 + l then 9
  else if dy < 304 + l then 10 else if dy < 334 + l then 11 else 12

/-- Day of the month from a 0-based day-of-year, given the leap bit `l`. -/
def dayFromDoy (l dy : Int) : Int :=
  dy - (monthOffset (monthFromDoy l dy) + (if 3 ≤ monthFromDoy l dy then l else 0)) + 1

/-- Civil date of an epoch-day number; models the engine's
`getUTCFullYear`/`getUTCMonth`/`getUTCDate` for a UTC-midnight `Date`. -/
def civilFromDays (t : Int) : CivilDate :=
  ⟨yearOfDay t, monthFromDoy (leapN (yearOfDay t)) (dayOfYear t),
    dayFromDoy (leapN (yearOfDay t)) (dayOfYear t)⟩

/-- Epoch day of a `CivilDate`. -/
def CivilDate.epochDay (c : CivilDate) : Int := daysFromCivil c.year c.month c.day

/-- JS `getUTCDay` of the UTC-midnight date with epoch day `t`
(0 = Sunday … 6 = Saturday; 1970-01-01 was a Thursday = 4). -/
def weekday (t : Int) : Int := (t + 4) % 7

/-- In-range civil date: month 1–12 and day within the month's length
(February has 29 days in leap years). -/
def ValidCivil (c : CivilDate) : Prop :=
  1 ≤ c.month ∧ c.month ≤ 12 ∧ 1 ≤ c.day ∧
  c.day ≤ (if c.month = 12 then 31 else monthOffset (c.month + 1) - monthOffset c.month) +
            (if c.month = 2 ∧ isLeap c.year then 1 else 0)

instance (c : CivilDate) : Decidable (ValidCivil c) := by
  unfold ValidCivil; infer_instance

/-- Epoch day of the Thursday of the ISO week of `t`
(the source's `d.setUTCDate(d.getUTCDate() + 4 - (d.getUTCDay() || 7))`). -/
def isoThursday (t : Int) : Int :=
  t + 4 - (if weekday t = 0 then 7 else weekday t)

/-- Model of `getWeekOfYear` (`main.ts` 404–414): ISO week number of a calendar
date.  `Math.ceil((days + 1) / 7)` on the exact integer day difference is
`(days + 1 + 6) / 7` in floor division. -/
def getWeekOfYear (date : CivilDate) : Int :=
  (isoThursday date.epochDay -
      daysFromCivil (civilFromDays (isoThursday date.epochDay)).year 1 1 + 1 + 6) / 7

/-- Model of `getISOWeekStartDate` (`main.ts` 421–428): epoch day of the Monday
of the ISO week of a calendar date (the ISO Thursday minus three days). -/
def getISOWeekStartDate (date : CivilDate) : Int :=
  isoThursday date.epochDay - 3

/-- Fuel-driven single-pass replace-all on character lists: at each position,
if the pattern matches, emit the replacement and skip the match (the
replacement is not rescanned), else keep the character.  This is the semantics
of JS `String.prototype.replace` with a global literal pattern.  Fuel is the
input length, which suffices for the nonempty patterns the source uses. -/
def replAux : Nat → List Char → List Char → List Char → List Char
  | _, [], _, _ => []
  | 0, s, _, _ => s
  | fuel + 1, c :: rest, pat, rep =>
      if pat ≠ [] ∧ pat.isPrefixOf (c :: rest) then
        rep ++ replAux fuel (List.drop pat.length (c :: rest)) pat rep
      else c :: replAux fuel rest pat rep

/-- Model of `s.replace(new RegExp(pat, 'g'), rep)` for the literal patterns
used by the source (no regex metacharacters, no `$` in replacements). -/
def replaceAll (s pat rep : String) : String :=
  ⟨replAux s.data.length s.data pat.data rep.data⟩

/-- Whether `pat` occurs as a contiguous substring of `s`. -/
def occursIn (s pat : List Char) : Bool :=
  pat.isPrefixOf s ||
    match s with
    | [] => false
    | _ :: rest => occursIn rest pat

/-- Model of JS `split('\n')`: split at every newline, keeping empty pieces.
Never returns the empty list. -/
def splitNl : List Char → List (List Char)
  | [] => [[]]
  | c :: rest =>
      if c = '\n' then [] :: splitNl rest
      else
        match splitNl rest with
        | h :: t => (c :: h) :: t
        | [] => [[c]]

/-- Model of JS `join('\n')`. -/
def joinNl : List (List Char) → List Char
  | [] => []
  | [x] => x
  | x :: xs => x ++ '\n' :: joinNl xs

/-- Model of JS `trim()`: strip whitespace from both ends. -/
def trimWs (l : List Char) : List Char :=
  ((l.dropWhile Char.isWhitespace).reverse.dropWhile Char.isWhitespace).reverse

/-- Model of JS `substring(0, 3)`. -/
def take3 (s : String) : String := ⟨s.data.take 3⟩

/-- Model of JS `slice(-2)`: the last two characters (the whole string if it is
shorter). -/
def last2 (s : String) : String := ⟨s.data.drop (s.data.length - 2)⟩

/-- Model of JS `padStart(2, '0')` applied to `n.toString()` (the source only
pads nonempty decimal strings). -/
def pad2 (n : Int) : String :=
  if (toString n).length < 2 then ("0") ++ toString n else toString n

/-- The source's fixed English month-name table (`main.ts` 444–445). -/
def monthNames : List String :=
  ["January", "February", "March", "April", "May", "June",
   "July", "August", "September", "October", "November", "December"]

/-- The source's fixed English weekday-name table (`main.ts` 446). -/
def dayNames : List String :=
  ["Sunday", "Monday", "Tuesday", "Wednesday", "Thursday", "Friday", "Saturday"]

/-- Model of `formatDate` (`main.ts` 437–469).  The source reads the date's
UTC fields and then applies ten global replacements in this exact order:
YYYY, YY, MMMM, MMM, MM, M, DD, D, dddd, ddd. -/
def formatDate (date : CivilDate) (format : String) : String :=
  let dayOfWeek := weekday date.epochDay
  let monthName := monthNames.getD (date.month - 1).toNat ("")
  let dayName := dayNames.getD dayOfWeek.toNat ("")
  let s := replaceAll format ("YYYY") (toString date.year)
  let s := replaceAll s ("YY") (last2 (toString date.year))
  let s := replaceAll s ("MMMM") monthName
  let s := replaceAll s ("MMM") (take3 monthName)
  let s := replaceAll s ("MM") (pad2 date.month)
  let s := replaceAll s ("M") (toString date.month)
  let s := replaceAll s ("DD") (pad2 date.day)
  let s := replaceAll s ("D") (toString date.day)
  let s := replaceAll s ("dddd") dayName
  let s := replaceAll s ("ddd") (take3 dayName)
  s

/-- The plugin settings consumed by the core (`main.ts` 4–16). -/
structure PluginSettings where
  calendarFolderPath : String
  weeklyTemplatePath : String
  dailyTemplatePath : String
  dailyFileNameFormat : String
  dailyDateFormat : String
  addWeekTag : Bool
  weekTagPrefix : String
  addWeekProperty : Bool
  weekPropertyName : String
  fileNameFormat : String
  weekStartDateFormat : String

/-- The kind of note being resolved. -/
inductive NoteType
  | daily
  | weekly
  deriving DecidableEq

/-- Model of the `replacements` map built in `processNote` (`main.ts`
485–497), in the source's insertion order.  Both week-of-year aliases receive
`weekOfYear.toString()` and both week-start aliases receive the formatted
week-start date; the braces of the placeholder tokens are written with
character escapes. -/
def buildReplacements (s : PluginSettings) (date : CivilDate) : List (String × String) :=
  [("\x7b\x7bwoy\x7d\x7d", toString (getWeekOfYear date)),
   ("\x7b\x7bweek_of_year\x7d\x7d", toString (getWeekOfYear date)),
   ("\x7b\x7bwsd\x7d\x7d",
     formatDate (civilFromDays (getISOWeekStartDate date)) s.weekStartDateFormat),
   ("\x7b\x7bweek_start_date\x7d\x7d",
     formatDate (civilFromDays (getISOWeekStartDate date)) s.weekStartDateFormat),
   ("\x7b\x7bdate\x7d\x7d", formatDate date s.dailyDateFormat)]

/-- Model of the source's replacement loop (`main.ts` 508–510 and 552–554):
each placeholder in turn is replaced everywhere in the text, in map order. -/
def substituteAll (reps : List (String × String)) (text : String) : String :=
  reps.foldl (fun acc pv => replaceAll acc pv.1 pv.2) text

/-- Model of the fallback body used when the template cannot be read
(`main.ts` 543–548).  The daily branch interpolates
`replacements['{{date}']` — the key is missing its second closing brace, so
the lookup misses the map and JS renders the undefined value as the string
"undefined". -/
def fallbackContent (noteType : NoteType) (weekOfYear : Int)
    (reps : List (String × String)) : String :=
  match noteType with
  | NoteType.weekly => ("# Weekly Note WO") ++ toString weekOfYear ++ ("\n\n")
  | NoteType.daily =>
      ("# Daily Note ") ++ ((reps.lookup ("\x7b\x7bdate\x7d")).getD ("undefined")) ++ ("\n\n")

/-- First step of the closing-delimiter scan (`main.ts` 563–569 and 571–574):
walk the lines after the opening delimiter; at the first line that trims to
`---`, insert the property line immediately before it.  `none` when no line
trims to `---`. -/
def insertBeforeClose (line : List Char) : List (List Char) → Option (List (List Char))
  | [] => none
  | x :: xs =>
      if trimWs x = ("---").data then some (line :: x :: xs)
      else (insertBeforeClose line xs).map (x :: ·)

/-- Model of the frontmatter-property insertion inlined in `processNote`
(`main.ts` 557–585): if the first line trims to `---`, insert before the first
subsequent line trimming to `---` (or directly after the opening line when the
block is unclosed); otherwise prepend a fresh three-line block followed by a
blank line. -/
def injectProperty (body line : String) : String :=
  match splitNl body.data with
  | l0 :: rest =>
      if trimWs l0 = ("---").data then
        match insertBeforeClose line.data rest with
        | some rest2 => ⟨joinNl (l0 :: rest2)⟩
        | none => ⟨joinNl (l0 :: line.data :: rest)⟩
      else ("---\n") ++ line ++ ("\n---\n\n") ++ body
  | [] => ("---\n") ++ line ++ ("\n---\n\n") ++ body

/-- The raw body before substitution: the template text when readable,
otherwise the fallback (`main.ts` 538–549). -/
def rawTemplateContent (s : PluginSettings) (nt : NoteType) (date : CivilDate)
    (template : Option String) : String :=
  match template with
  | some c => c
  | none => fallbackContent nt (getWeekOfYear date) (buildReplacements s date)

/-- The body after the placeholder-replacement loop (`main.ts` 552–554). -/
def substitutedContent (s : PluginSettings) (nt : NoteType) (date : CivilDate)
    (template : Option String) : String :=
  substituteAll (buildReplacements s date) (rawTemplateContent s nt date template)

/-- The frontmatter line added for the week property (`main.ts` 558). -/
def weekPropertyLine (s : PluginSettings) (date : CivilDate) : String :=
  s.weekPropertyName ++ (": ") ++ toString (getWeekOfYear date)

/-- The week-tag text appended at the end of the body (`main.ts` 589–590). -/
def weekTagSuffix (s : PluginSettings) (date : CivilDate) : String :=
  ("\n\n#") ++ s.weekTagPrefix ++ toString (getWeekOfYear date)

/-- The body after the optional week-property injection (`main.ts` 557–585):
when the setting is on, the inlined frontmatter splice — modelled by
`injectProperty` — is applied with the week-property line. -/
def bodyAfterProperty (s : PluginSettings) (nt : NoteType) (date : CivilDate)
    (template : Option String) : String :=
  if s.addWeekProperty then
    injectProperty (substitutedContent s nt date template) (weekPropertyLine s date)
  else substitutedContent s nt date template

/-- Model of the body computation of `processNote` (`main.ts` 476–591) for a
resolved target date and template read result: substitute placeholders, then
optionally inject the week property, then optionally append the week tag
(`main.ts` 588–591). -/
def processNoteBody (s : PluginSettings) (nt : NoteType) (date : CivilDate)
    (template : Option String) : String :=
  if s.addWeekTag then bodyAfterProperty s nt date template ++ weekTagSuffix s date
  else bodyAfterProperty s nt date template

/-- A settings value with the week property enabled (name `week`) and the week
tag disabled; other fields as the source defaults (`main.ts` 19–31). -/
def sampleSettings : PluginSettings where
  calendarFolderPath := "Calendar"
  weeklyTemplatePath := "Templates/Weekly Template.md"
  dailyTemplatePath := "Templates/Daily Template.md"
  dailyFileNameFormat := "YYYY-MM-DD.md"
  dailyDateFormat := "YYYY-MM-DD"
  addWeekTag := false
  weekTagPrefix := "week-"
  addWeekProperty := true
  weekPropertyName := "week"
  fileNameFormat := "WO\x7b\x7bwoy\x7d\x7d.md"
  weekStartDateFormat := "YYYY-MM-DD"

/-- A settings value with both week toggles disabled; other fields as the
source defaults. -/
def plainSettings : PluginSettings :=
  { sampleSettings with addWeekProperty := false, weekPropertyName := "week" }

/-- UTC calendar day containing an epoch-millisecond instant (local = UTC). -/
def dayOfInstant (ms : Int) : Int := ms / 86400000

/-- The calendar date `processNote` derives from its target instant via
`getFullYear`/`getMonth`/`getDate` (`main.ts` 477, 485–486). -/
def processNoteTargetDate (targetMs : Int) : CivilDate :=
  civilFromDays (dayOfInstant targetMs)

/-- Model of `processTomorrowNote` (`main.ts` 619–623): the target instant is
`now.getTime() + 24*60*60*1000`, resolved as a daily note. -/
def tomorrowInstant (nowMs : Int) : Int := nowMs + 24 * 60 * 60 * 1000

/-- The calendar date a tomorrow request resolves (`main.ts` 619–623 feeding
`main.ts` 477). -/
def processTomorrowTargetDate (nowMs : Int) : CivilDate :=
  processNoteTargetDate (tomorrowInstant nowMs)

/-- The week number used for a tomorrow request (`main.ts` 485). -/
def processTomorrowWeekOfYear (nowMs : Int) : Int :=
  getWeekOfYear (processTomorrowTargetDate nowMs)

/-- The week start date used for a tomorrow request (`main.ts` 486). -/
def processTomorrowWeekStart (nowMs : Int) : Int :=
  getISOWeekStartDate (processTomorrowTargetDate nowMs)

/-!
## Sanity checks of the model on known dates
-/

example : daysFromCivil 1970 1 1 = 0 := by decide
example : daysFromCivil 2024 1 1 = 19723 := by decide
example : daysFromCivil 2024 3 1 = 19783 := by decide
example : daysFromCivil 2023 3 1 = 19417 := by decide
example : civilFromDays 19723 = ⟨2024, 1, 1⟩ := by decide
example : civilFromDays 19782 = ⟨2024, 2, 29⟩ := by decide
example : civilFromDays 0 = ⟨1970, 1, 1⟩ := by decide
example : civilFromDays (-1) = ⟨1969, 12, 31⟩ := by decide
example : weekday 0 = 4 := by decide
example : weekday 19723 = 1 := by decide
example : getWeekOfYear ⟨2024, 1, 1⟩ = 1 := by decide
example : getISOWeekStartDate ⟨2024, 1, 1⟩ = 19723 := by decide
example : getISOWeekStartDate ⟨2024, 3, 15⟩ = 19793 := by decide
example : civilFromDays 19793 = ⟨2024, 3, 11⟩ := by decide
example : formatDate ⟨2024, 3, 15⟩ ("YYYY-MM-DD") = "2024-03-15" := by decide
example : formatDate ⟨2024, 3, 15⟩ ("dddd") = "Friday" := by decide

/-!
## Calendar lemmas
-/

/-- The year extracted from an epoch day brackets it between that year's
January 1 and the next year's. -/
theorem yearOfDay_bracket (t : Int) :
    daysToYear (yearOfDay t) ≤ t ∧ t < daysToYear (yearOfDay t + 1) := by
  unfold yearOfDay daysToYear
  split_ifs <;> omega

/-- Consecutive January firsts are 365 or 366 days apart (366 in leap years). -/
theorem daysToYear_succ (y : Int) :
    daysToYear (y + 1) = daysToYear y + (if isLeap y then 366 else 365) := by
  unfold daysToYear isLeap
  split_ifs <;> omega

/-- The month/day split of a day-of-year is consistent: month offset plus leap
correction plus (day − 1) recovers the day-of-year. -/
theorem monthFromDoy_dayFromDoy (l dy : Int) :
    monthOffset (monthFromDoy l dy) + (if 3 ≤ monthFromDoy l dy then l else 0) +
      dayFromDoy l dy - 1 = dy := by
  unfold dayFromDoy
  omega

/-- Round-trip: converting an epoch day to a civil date and back is the
identity. -/
theorem epochDay_civilFromDays (t : Int) : (civilFromDays t).epochDay = t := by
  have hkey := monthFromDoy_dayFromDoy (leapN (yearOfDay t)) (dayOfYear t)
  have hleap : ∀ m : Int,
      (if 3 ≤ m ∧ isLeap (yearOfDay t) then (1 : Int) else 0) =
      (if 3 ≤ m then leapN (yearOfDay t) else 0) := by
    intro m; unfold leapN; split_ifs <;> tauto
  unfold CivilDate.epochDay civilFromDays daysFromCivil
  simp only
  rw [hleap]
  unfold dayOfYear at hkey ⊢
  omega

/-- January 1 of a year, converted to days, is `daysToYear`. -/
theorem daysFromCivil_jan1 (y : Int) : daysFromCivil y 1 1 = daysToYear y := by
  have h1 : monthOffset 1 = 0 := by decide
  have h2 : (if 3 ≤ (1 : Int) ∧ isLeap y then (1 : Int) else 0) = 0 := by
    rw [if_neg]; rintro ⟨h3, -⟩; omega
  unfold daysFromCivil
  rw [h1, h2]
  ring

/-- The ISO-week Thursday of any day is a Thursday. -/
theorem isoThursday_weekday (t : Int) : weekday (isoThursday t) = 4 := by
  unfold isoThursday weekday
  split_ifs <;> omega

/-- A day with weekday 1 (Monday) has its ISO Thursday exactly three days
later. -/
theorem isoThursday_of_monday (t : Int) (h : weekday t = 1) :
    isoThursday t = t + 3 := by
  unfold isoThursday
  rw [h]
  split_ifs with h0
  · omega
  · ring

/-- The Monday produced by `getISOWeekStartDate` shares its ISO Thursday with
the input date. -/
theorem isoThursday_weekStart (date : CivilDate) :
    isoThursday (getISOWeekStartDate date) = isoThursday date.epochDay := by
  have h4 := isoThursday_weekday date.epochDay
  unfold getISOWeekStartDate
  have hm : weekday (isoThursday date.epochDay - 3) = 1 := by
    unfold weekday at h4 ⊢; omega
  rw [isoThursday_of_monday _ hm]
  omega

/-- The ISO Thursday lies within its own civil year: 0–365 days after that
year's January 1. -/
theorem thursday_dayOfYear_bounds (t : Int) :
    0 ≤ isoThursday t - daysToYear (yearOfDay (isoThursday t)) ∧
      isoThursday t - daysToYear (yearOfDay (isoThursday t)) ≤ 365 := by
  have hb := yearOfDay_bracket (isoThursday t)
  have hs := daysToYear_succ (yearOfDay (isoThursday t))
  split_ifs at hs <;> omega

/-!
## C1, C2, C9 — Calendar Calculator claims
-/

/-- C1: For every valid calendar date D, `getISOWeekStartDate(D)` falls on a
Monday (JS weekday 1), and `getWeekOfYear` of that Monday — read back through
the returned `Date`'s calendar fields — equals `getWeekOfYear(D)`. -/
theorem weekStart_monday_and_same_week (date : CivilDate) (h : ValidCivil date) :
    weekday (getISOWeekStartDate date) = 1 ∧
    getWeekOfYear (civilFromDays (getISOWeekStartDate date)) = getWeekOfYear date := by
  have h4 := isoThursday_weekday date.epochDay
  constructor
  · unfold getISOWeekStartDate
    unfold weekday at h4 ⊢
    omega
  · unfold getWeekOfYear
    rw [epochDay_civilFromDays, isoThursday_weekStart]

/-- C1 witness: instantiated at 2024-03-15. -/
theorem weekStart_monday_and_same_week_witness :
    ValidCivil ⟨2024, 3, 15⟩ ∧
      (weekday (getISOWeekStartDate ⟨2024, 3, 15⟩) = 1 ∧
        getWeekOfYear (civilFromDays (getISOWeekStartDate ⟨2024, 3, 15⟩)) =
          getWeekOfYear ⟨2024, 3, 15⟩) :=
  ⟨by decide, weekStart_monday_and_same_week ⟨2024, 3, 15⟩ (by decide)⟩

/-- C2: the three ISO year-boundary checks from the spec: 2024-01-01,
2018-12-31 and 2019-12-31 all have week number 1. -/
theorem weekOfYear_boundary_examples :
    getWeekOfYear ⟨2024, 1, 1⟩ = 1 ∧ getWeekOfYear ⟨2018, 12, 31⟩ = 1 ∧
      getWeekOfYear ⟨2019, 12, 31⟩ = 1 := by
  refine ⟨by decide, by decide, by decide⟩

/-- C9: `getWeekOfYear` always returns an integer between 1 and 53. -/
theorem getWeekOfYear_range (date : CivilDate) (h : ValidCivil date) :
    1 ≤ getWeekOfYear date ∧ getWeekOfYear date ≤ 53 := by
  have hb := thursday_dayOfYear_bounds date.epochDay
  have hy : ∀ t : Int, (civilFromDays t).year = yearOfDay t := fun _ => rfl
  unfold getWeekOfYear
  rw [daysFromCivil_jan1, hy]
  omega

/-- C9 witness: instantiated at 2024-12-31 (a week-1-of-2025 date). -/
theorem getWeekOfYear_range_witness :
    ValidCivil ⟨2024, 12, 31⟩ ∧
      (1 ≤ getWeekOfYear ⟨2024, 12, 31⟩ ∧ getWeekOfYear ⟨2024, 12, 31⟩ ≤ 53) :=
  ⟨by decide, getWeekOfYear_range ⟨2024, 12, 31⟩ (by decide)⟩

/-!
## Replacement lemmas
-/

/-- Replacing a pattern that does not occur leaves the text unchanged, for any
fuel. -/
theorem replAux_of_not_occursIn (fuel : Nat) (s pat rep : List Char)
    (h : occursIn s pat = false) : replAux fuel s pat rep = s := by
  induction fuel generalizing s with
  | zero => cases s <;> rfl
  | succ n ih =>
    cases s with
    | nil => rfl
    | cons c rest =>
      unfold occursIn at h
      simp only [Bool.or_eq_false_iff] at h
      unfold replAux
      rw [if_neg, ih rest h.2]
      simp [h.1]

/-- String version: replacing an absent pattern is the identity. -/
theorem replaceAll_of_not_occursIn (s pat rep : String)
    (h : occursIn s.data pat.data = false) : replaceAll s pat rep = s := by
  unfold replaceAll
  rw [replAux_of_not_occursIn _ _ _ _ h]

theorem isPrefixOf_self (l : List Char) : l.isPrefixOf l = true := by
  induction l with
  | nil => rfl
  | cons c rest ih => simp [List.isPrefixOf, ih]

/-- Replacing the whole string by a pattern equal to it yields exactly the
replacement. -/
theorem replaceAll_self (s rep : String) (h : s.data ≠ []) :
    replaceAll s s rep = rep := by
  unfold replaceAll
  cases hs : s.data with
  | nil => exact absurd hs h
  | cons c rest =>
    simp only [List.length_cons]
    unfold replAux
    rw [if_pos ⟨by simp, isPrefixOf_self _⟩]
    rw [List.drop_length]
    cases rest <;> simp [replAux]

/-- A pattern whose first character does not appear in the text does not occur
in it. -/
theorem occursIn_eq_false_of_head_notMem (s : List Char) (c : Char) (ps : List Char)
    (h : c ∉ s) : occursIn s (c :: ps) = false := by
  induction s with
  | nil => rfl
  | cons a rest ih =>
    unfold occursIn
    simp only [Bool.or_eq_false_iff]
    constructor
    · unfold List.isPrefixOf
      have hca : (c == a) = false := by
        simp only [beq_eq_false_iff_ne, ne_eq]
        intro he
        exact h (he ▸ List.mem_cons_self a rest)
      simp [hca]
    · exact ih (fun hm => h (List.mem_cons_of_mem a hm))

/-- Every character produced by `Nat.digitChar` on an input below 10 is a
decimal digit. -/
theorem digitChar_isDigit (n : Nat) (h : n < 10) :
    (Nat.digitChar n).isDigit = true := by
  interval_cases n <;> decide

/-- Characters accumulated by `Nat.toDigitsCore` in base 10 are decimal
digits, provided the accumulator only holds digits. -/
theorem toDigitsCore_digits (fuel n : Nat) (acc : List Char)
    (hacc : ∀ c ∈ acc, c.isDigit = true) :
    ∀ c ∈ Nat.toDigitsCore 10 fuel n acc, c.isDigit = true := by
  induction fuel generalizing n acc with
  | zero => exact hacc
  | succ m ih =>
    unfold Nat.toDigitsCore
    simp only
    split_ifs with h0
    · intro c hc
      rcases List.mem_cons.mp hc with h | h
      · subst h; exact digitChar_isDigit _ (Nat.mod_lt _ (by omega))
      · exact hacc _ h
    · refine ih _ _ ?_
      intro c hc
      rcases List.mem_cons.mp hc with h | h
      · subst h; exact digitChar_isDigit _ (Nat.mod_lt _ (by omega))
      · exact hacc _ h

/-- Every character of `Nat.repr` is a decimal digit. -/
theorem natRepr_digits (n : Nat) : ∀ c ∈ (Nat.repr n).data, c.isDigit = true := by
  intro c hc
  exact toDigitsCore_digits (n + 1) n [] (by simp) c hc

/-- Every character of `toString` of an integer is a minus sign or a decimal
digit. -/
theorem intToString_chars (n : Int) :
    ∀ c ∈ (toString n).data, c = '-' ∨ c.isDigit = true := by
  intro c hc
  cases n with
  | ofNat m =>
      right
      exact natRepr_digits m c hc
  | negSucc m =>
      have : (toString (Int.negSucc m)).data = '-' :: (Nat.repr (m + 1)).data := rfl
      rw [this] at hc
      rcases List.mem_cons.mp hc with h | h
      · left; exact h
      · right; exact natRepr_digits (m + 1) c h

/-- A pattern starting with a character that is neither a minus sign nor a
digit never occurs in the decimal rendering of an integer. -/
theorem occursIn_toString_int_false (n : Int) (c : Char) (ps : List Char)
    (hc : c ≠ '-') (hd : c.isDigit = false) :
    occursIn (toString n).data (c :: ps) = false := by
  refine occursIn_eq_false_of_head_notMem _ _ _ ?_
  intro hm
  rcases intToString_chars n c hm with h | h
  · exact hc h
  · rw [h] at hd; exact absurd hd (by simp)

/-!
## C3 — Date Formatter token precedence
-/

/-- C3 counterexample: formatting 2024-03-15 with the format string `MMMM`
yields `3arch`, not the month name `March` — the later unpadded-month rule
rewrites the capital M of the substituted month name. -/
theorem formatDate_corrupts_month_name :
    formatDate ⟨2024, 3, 15⟩ ("MMMM") = "3arch" ∧
      monthNames.getD 2 ("") = "March" ∧
      formatDate ⟨2024, 3, 15⟩ ("MMMM") ≠ monthNames.getD 2 ("") := by
  refine ⟨by decide, by decide, by decide⟩

/-- C3 amended: the replacements happen in the fixed source order YYYY, YY,
MMMM, MMM, MM, M, DD, D, dddd, ddd — longer before shorter within each token
group, with the weekday group last.  Consequently a substituted weekday name
is never rewritten by a later rule, and a four-digit year is never mangled by
the two-digit rule; month names, however, can be rewritten by the later
unpadded month/day rules (the counterexample above). -/
theorem formatDate_weekday_and_year_intact :
    (∀ date : CivilDate,
        formatDate date ("dddd") = dayNames.getD (weekday date.epochDay).toNat ("")) ∧
    (∀ date : CivilDate, formatDate date ("YYYY") = toString date.year) := by
  constructor
  · intro date
    have hchain : formatDate date ("dddd") =
        replaceAll (replaceAll ("dddd") ("dddd")
            (dayNames.getD (weekday date.epochDay).toNat ("")))
          ("ddd") (take3 (dayNames.getD (weekday date.epochDay).toNat (""))) := by
      have e1 : ∀ rep, replaceAll ("dddd") ("YYYY") rep = "dddd" := fun rep =>
        replaceAll_of_not_occursIn _ _ _ (by decide)
      have e2 : ∀ rep, replaceAll ("dddd") ("YY") rep = "dddd" := fun rep =>
        replaceAll_of_not_occursIn _ _ _ (by decide)
      have e3 : ∀ rep, replaceAll ("dddd") ("MMMM") rep = "dddd" := fun rep =>
        replaceAll_of_not_occursIn _ _ _ (by decide)
      have e4 : ∀ rep, replaceAll ("dddd") ("MMM") rep = "dddd" := fun rep =>
        replaceAll_of_not_occursIn _ _ _ (by decide)
      have e5 : ∀ rep, replaceAll ("dddd") ("MM") rep = "dddd" := fun rep =>
        replaceAll_of_not_occursIn _ _ _ (by decide)
      have e6 : ∀ rep, replaceAll ("dddd") ("M") rep = "dddd" := fun rep =>
        replaceAll_of_not_occursIn _ _ _ (by decide)
      have e7 : ∀ rep, replaceAll ("dddd") ("DD") rep = "dddd" := fun rep =>
        replaceAll_of_not_occursIn _ _ _ (by decide)
      have e8 : ∀ rep, replaceAll ("dddd") ("D") rep = "dddd" := fun rep =>
        replaceAll_of_not_occursIn _ _ _ (by decide)
      unfold formatDate
      dsimp only
      rw [e1, e2, e3, e4, e5, e6, e7, e8]
    rw [hchain]
    have hw : 0 ≤ weekday date.epochDay ∧ weekday date.epochDay < 7 := by
      unfold weekday; omega
    have h7 : weekday date.epochDay = 0 ∨ weekday date.epochDay = 1 ∨
        weekday date.epochDay = 2 ∨ weekday date.epochDay = 3 ∨
        weekday date.epochDay = 4 ∨ weekday date.epochDay = 5 ∨
        weekday date.epochDay = 6 := by omega
    rcases h7 with h | h | h | h | h | h | h <;> rw [h] <;>
      rw [replaceAll_self _ _ (by decide)] <;>
      exact replaceAll_of_not_occursIn _ _ _ (by decide)
  · intro date
    have e1 : replaceAll ("YYYY") ("YYYY") (toString date.year) = toString date.year :=
      replaceAll_self _ _ (by decide)
    have e2 : ∀ rep, replaceAll (toString date.year) ("YY") rep = toString date.year :=
      fun rep => replaceAll_of_not_occursIn _ _ _
        (occursIn_toString_int_false _ _ _ (by decide) (by decide))
    have e3 : ∀ rep, replaceAll (toString date.year) ("MMMM") rep = toString date.year :=
      fun rep => replaceAll_of_not_occursIn _ _ _
        (occursIn_toString_int_false _ _ _ (by decide) (by decide))
    have e4 : ∀ rep, replaceAll (toString date.year) ("MMM") rep = toString date.year :=
      fun rep => replaceAll_of_not_occursIn _ _ _
        (occursIn_toString_int_false _ _ _ (by decide) (by decide))
    have e5 : ∀ rep, replaceAll (toString date.year) ("MM") rep = toString date.year :=
      fun rep => replaceAll_of_not_occursIn _ _ _
        (occursIn_toString_int_false _ _ _ (by decide) (by decide))
    have e6 : ∀ rep, replaceAll (toString date.year) ("M") rep = toString date.year :=
      fun rep => replaceAll_of_not_occursIn _ _ _
        (occursIn_toString_int_false _ _ _ (by decide) (by decide))
    have e7 : ∀ rep, replaceAll (toString date.year) ("DD") rep = toString date.year :=
      fun rep => replaceAll_of_not_occursIn _ _ _
        (occursIn_toString_int_false _ _ _ (by decide) (by decide))
    have e8 : ∀ rep, replaceAll (toString date.year) ("D") rep = toString date.year :=
      fun rep => replaceAll_of_not_occursIn _ _ _
        (occursIn_toString_int_false _ _ _ (by decide) (by decide))
    have e9 : ∀ rep, replaceAll (toString date.year) ("dddd") rep = toString date.year :=
      fun rep => replaceAll_of_not_occursIn _ _ _
        (occursIn_toString_int_false _ _ _ (by decide) (by decide))
    have e10 : ∀ rep, replaceAll (toString date.year) ("ddd") rep = toString date.year :=
      fun rep => replaceAll_of_not_occursIn _ _ _
        (occursIn_toString_int_false _ _ _ (by decide) (by decide))
    unfold formatDate
    dsimp only
    rw [e1, e2, e3, e4, e5, e6, e7, e8, e9, e10]

/-!
## C5 — Placeholder alias consistency
-/

/-- C5: in the replacements map both week-of-year aliases are bound to
byte-identical values, both week-start aliases are bound to byte-identical
values, and substituting a template consisting of either week-of-year
spelling produces the same text. -/
theorem replacements_alias_consistent (s : PluginSettings) (date : CivilDate) :
    (buildReplacements s date).lookup ("\x7b\x7bwoy\x7d\x7d") =
      (buildReplacements s date).lookup ("\x7b\x7bweek_of_year\x7d\x7d") ∧
    (buildReplacements s date).lookup ("\x7b\x7bwsd\x7d\x7d") =
      (buildReplacements s date).lookup ("\x7b\x7bweek_start_date\x7d\x7d") ∧
    substituteAll (buildReplacements s date) ("\x7b\x7bwoy\x7d\x7d") =
      substituteAll (buildReplacements s date) ("\x7b\x7bweek_of_year\x7d\x7d") := by
  refine ⟨rfl, rfl, ?_⟩
  have hweek : ∀ pat : String, pat.data.head? = some '\x7b' →
      ∀ rep, replaceAll (toString (getWeekOfYear date)) pat rep =
        toString (getWeekOfYear date) := by
    intro pat hpat rep
    cases hp : pat.data with
    | nil => rw [hp] at hpat; exact absurd hpat (by simp)
    | cons c cs =>
        rw [hp] at hpat
        have hc : c = '\x7b' := by simpa using hpat
        subst hc
        unfold replaceAll
        rw [hp, replAux_of_not_occursIn _ _ _ _
          (occursIn_toString_int_false _ _ _ (by decide) (by decide))]
  unfold substituteAll buildReplacements
  simp only [List.foldl]
  rw [replaceAll_self _ _ (by decide),
    replaceAll_of_not_occursIn ("\x7b\x7bweek_of_year\x7d\x7d") ("\x7b\x7bwoy\x7d\x7d") _
      (by decide),
    replaceAll_self _ _ (by decide)]
  rw [hweek _ (by decide), hweek _ (by decide), hweek _ (by decide),
    hweek _ (by decide)]

/-!
## Frontmatter-injection lemmas
-/

/-- If no line before `c` trims to `---` and `c` does, the scan inserts the
property line exactly at `c`. -/
theorem insertBeforeClose_found (line : List Char) (ls1 : List (List Char))
    (c : List Char) (ls2 : List (List Char))
    (hfirst : ∀ x ∈ ls1, trimWs x ≠ ("---").data)
    (hc : trimWs c = ("---").data) :
    insertBeforeClose line (ls1 ++ c :: ls2) = some (ls1 ++ line :: c :: ls2) := by
  induction ls1 with
  | nil =>
      unfold insertBeforeClose
      simp [hc]
  | cons a as ih =>
      have ha : trimWs a ≠ ("---").data := hfirst a (List.mem_cons_self a as)
      unfold insertBeforeClose
      simp only [List.cons_append]
      rw [if_neg ha, ih (fun x hx => hfirst x (List.mem_cons_of_mem a hx))]
      rfl

/-- If no line trims to `---`, the scan finds no closing delimiter. -/
theorem insertBeforeClose_none (line : List Char) (ls : List (List Char))
    (h : ∀ x ∈ ls, trimWs x ≠ ("---").data) :
    insertBeforeClose line ls = none := by
  induction ls with
  | nil => rfl
  | cons a as ih =>
      have ha : trimWs a ≠ ("---").data := h a (List.mem_cons_self a as)
      unfold insertBeforeClose
      rw [if_neg ha, ih (fun x hx => h x (List.mem_cons_of_mem a hx))]
      rfl

/-!
## C6 — Frontmatter injection position and frame
-/

/-- C6: when the body opens a frontmatter block and its closing `---` line (the
first line after the opening that the injector recognises as closing) sits at
index k, the property line is inserted immediately before index k and every
other line is kept verbatim in order. -/
theorem injectProperty_before_close (body line : String) (l0 : List Char)
    (ls1 ls2 : List (List Char))
    (hsplit : splitNl body.data = l0 :: (ls1 ++ ("---").data :: ls2))
    (hopen : trimWs l0 = ("---").data)
    (hfirst : ∀ x ∈ ls1, trimWs x ≠ ("---").data) :
    injectProperty body line =
      ⟨joinNl (l0 :: (ls1 ++ line.data :: ("---").data :: ls2))⟩ := by
  unfold injectProperty
  rw [hsplit]
  dsimp only
  rw [if_pos hopen,
    insertBeforeClose_found line.data ls1 _ ls2 hfirst (by decide)]

/-- C6 witness: the spec's concrete test — inserting `week: 5` into
`---\nfoo: 1\n---\nBody text`. -/
theorem injectProperty_before_close_witness :
    injectProperty ("---\nfoo: 1\n---\nBody text") ("week: 5") =
      "---\nfoo: 1\nweek: 5\n---\nBody text" :=
  (injectProperty_before_close ("---\nfoo: 1\n---\nBody text") ("week: 5")
    (("---").data) [("foo: 1").data] [("Body text").data]
    (by decide) (by decide) (by decide)).trans (by decide)

/-!
## C7 — Delimiter recognition trims both ends
-/

/-- C7 counterexample: a closing line ` --- ` carrying surrounding whitespace
IS accepted as the closing delimiter (the property is inserted before it), so
injection does not take the claimed malformed-block path. -/
theorem injectProperty_accepts_padded_close :
    injectProperty ("---\na: 1\n --- \nrest") ("week: 5") =
        "---\na: 1\nweek: 5\n --- \nrest" ∧
      injectProperty ("---\na: 1\n --- \nrest") ("week: 5") ≠
        "---\nweek: 5\na: 1\n --- \nrest" := by
  refine ⟨by decide, by decide⟩

/-- C7 amended: both delimiters are recognised up to whitespace trimming on
both ends (JS `trim()`): the opening is any first line trimming to `---`, the
closing is the first subsequent line trimming to `---`; when no line trims to
`---`, the line is inserted directly after the opening delimiter. -/
theorem injectProperty_trim_delimiters :
    (∀ (body line : String) (l0 c : List Char) (ls1 ls2 : List (List Char)),
        splitNl body.data = l0 :: (ls1 ++ c :: ls2) → trimWs l0 = ("---").data →
        (∀ x ∈ ls1, trimWs x ≠ ("---").data) → trimWs c = ("---").data →
        injectProperty body line = ⟨joinNl (l0 :: (ls1 ++ line.data :: c :: ls2))⟩) ∧
    (∀ (body line : String) (l0 : List Char) (ls : List (List Char)),
        splitNl body.data = l0 :: ls → trimWs l0 = ("---").data →
        (∀ x ∈ ls, trimWs x ≠ ("---").data) →
        injectProperty body line = ⟨joinNl (l0 :: line.data :: ls)⟩) := by
  constructor
  · intro body line l0 c ls1 ls2 hsplit hopen hfirst hc
    unfold injectProperty
    rw [hsplit]
    dsimp only
    rw [if_pos hopen, insertBeforeClose_found line.data ls1 c ls2 hfirst hc]
  · intro body line l0 ls hsplit hopen hnone
    unfold injectProperty
    rw [hsplit]
    dsimp only
    rw [if_pos hopen, insertBeforeClose_none line.data ls hnone]

/-- C7 amended witness: a whitespace-padded opening `--- ` and closing ` ---`
are both recognised, and a block with no closing line gets the property right
after the opening. -/
theorem injectProperty_trim_delimiters_witness :
    injectProperty ("--- \nkey: v\n ---\nbody") ("week: 5") =
        "--- \nkey: v\nweek: 5\n ---\nbody" ∧
      injectProperty ("---\nunclosed") ("week: 5") = "---\nweek: 5\nunclosed" :=
  ⟨(injectProperty_trim_delimiters.1 ("--- \nkey: v\n ---\nbody") ("week: 5")
      (("--- ").data) ((" ---").data) [("key: v").data] [("body").data]
      (by decide) (by decide) (by decide) (by decide)).trans (by decide),
   (injectProperty_trim_delimiters.2 ("---\nunclosed") ("week: 5")
      (("---").data) [("unclosed").data]
      (by decide) (by decide) (by decide)).trans (by decide)⟩

/-!
## C8 — Daily fallback body misses the formatted date
-/

/-- C8 evaluation: resolving a daily note for 2024-01-15 with an unreadable
template produces the fallback body `# Daily Note undefined` — the formatted
target date `2024-01-15` (exactly the value bound to the date placeholder) is
absent from the body, because the fallback interpolates the misspelled key
with a single closing brace, which misses the map. -/
theorem dailyFallback_missing_date :
    processNoteBody plainSettings NoteType.daily ⟨2024, 1, 15⟩ none =
        "# Daily Note undefined\n\n" ∧
      (buildReplacements plainSettings ⟨2024, 1, 15⟩).lookup ("\x7b\x7bdate\x7d\x7d") =
        some ("2024-01-15") ∧
      occursIn (processNoteBody plainSettings NoteType.daily ⟨2024, 1, 15⟩ none).data
        (("2024-01-15").data) = false := by
  refine ⟨by decide, by decide, by decide⟩

/-!
## C10 — Injected week property matches the woy placeholder
-/

/-- C10: with the add-week-property setting on, the injected frontmatter line
is exactly `<weekPropertyName>: <n>` with `n = getWeekOfYear(target)` — the
same text the map binds to the week-of-year placeholder — for daily and weekly
notes alike (a tomorrow request reaches this code as a daily note for the next
day).  Stated here for a substituted body that does not itself open a
frontmatter block, so the injected block is visible at the front verbatim. -/
theorem weekProperty_matches_placeholder (s : PluginSettings) (nt : NoteType)
    (date : CivilDate) (template : Option String) (l0 : List Char)
    (ls : List (List Char))
    (hprop : s.addWeekProperty = true)
    (hsplit : splitNl (substitutedContent s nt date template).data = l0 :: ls)
    (hopen : trimWs l0 ≠ ("---").data) :
    processNoteBody s nt date template =
      (("---\n") ++ (s.weekPropertyName ++ (": ") ++ toString (getWeekOfYear date)) ++
          ("\n---\n\n") ++ substitutedContent s nt date template) ++
        (if s.addWeekTag then weekTagSuffix s date else "") ∧
    (buildReplacements s date).lookup ("\x7b\x7bwoy\x7d\x7d") =
      some (toString (getWeekOfYear date)) := by
  constructor
  · have hinj : injectProperty (substitutedContent s nt date template)
        (weekPropertyLine s date) =
        ("---\n") ++ weekPropertyLine s date ++ ("\n---\n\n") ++
          substitutedContent s nt date template := by
      unfold injectProperty
      rw [hsplit]
      dsimp only
      rw [if_neg hopen]
    unfold processNoteBody bodyAfterProperty
    rw [hprop, if_pos rfl, hinj]
    unfold weekPropertyLine
    split_ifs with htag
    · rfl
    · have hemp : ∀ u : String, u ++ ("") = u := by
        intro u
        cases u with
        | mk l => show String.mk (l ++ []) = String.mk l; rw [List.append_nil]
      rw [hemp]
  · rfl

/-- C10 witness: daily note for 2024-01-15 (ISO week 3) over the template
`Hello`, with property name `week`. -/
theorem weekProperty_matches_placeholder_witness :
    processNoteBody sampleSettings NoteType.daily ⟨2024, 1, 15⟩ (some ("Hello")) =
        "---\nweek: 3\n---\n\nHello" ∧
      (buildReplacements sampleSettings ⟨2024, 1, 15⟩).lookup ("\x7b\x7bwoy\x7d\x7d") =
        some ("3") :=
  ⟨((weekProperty_matches_placeholder sampleSettings NoteType.daily ⟨2024, 1, 15⟩
      (some ("Hello")) (("Hello").data) [] rfl (by decide) (by decide)).1).trans
        (by decide),
   ((weekProperty_matches_placeholder sampleSettings NoteType.daily ⟨2024, 1, 15⟩
      (some ("Hello")) (("Hello").data) [] rfl (by decide) (by decide)).2).trans
        (by decide)⟩

/-!
## C4 — Tomorrow is resolved as now + 1 calendar day, before week arithmetic
-/

/-- C4: for every instant `now`, the tomorrow request targets exactly the next
calendar day (the civil date of epoch day `dayOfInstant now + 1`), and the
week number and week start date it uses are those computed from that next
calendar day — not derived from today's week values. -/
theorem tomorrow_next_calendar_day (nowMs : Int) :
    processTomorrowTargetDate nowMs = civilFromDays (dayOfInstant nowMs + 1) ∧
    processTomorrowWeekOfYear nowMs =
      getWeekOfYear (civilFromDays (dayOfInstant nowMs + 1)) ∧
    processTomorrowWeekStart nowMs =
      getISOWeekStartDate (civilFromDays (dayOfInstant nowMs + 1)) := by
  have hd : dayOfInstant (tomorrowInstant nowMs) = dayOfInstant nowMs + 1 := by
    unfold dayOfInstant tomorrowInstant
    omega
  unfold processTomorrowWeekOfYear processTomorrowWeekStart
    processTomorrowTargetDate processNoteTargetDate
  rw [hd]
  exact ⟨rfl, rfl, rfl⟩

-- The spec's tomorrow scenario: at 2024-12-30 (epoch day 20087, a Monday of
-- ISO week 1 of 2025), the tomorrow request targets 2024-12-31, still week 1.
example :
    processTomorrowTargetDate (20087 * 86400000) = ⟨2024, 12, 31⟩ ∧
      processTomorrowWeekOfYear (20087 * 86400000) = 1 := by
  refine ⟨by decide, by decide⟩
